import Mathlib

/-!
Shallow embedding of the food-scanner repository's client-side logic
(src/components/OpenFoodFactsSearch.tsx and src/components/BarcodeScanner.tsx)
and proofs of the specification claims about it.

JavaScript string primitives (trim, toLowerCase, toUpperCase, split on a
single-character separator, includes) are modelled character-wise over
`String.data`; for the ASCII inputs these functions are applied to, the
models agree with the ECMAScript operations.
-/

namespace FoodScanner

/-- Whitespace as trimmed by JavaScript String.prototype.trim (ASCII part:
space, tab, line feed, carriage return, vertical tab, form feed). -/
def isJsSpace (c : Char) : Bool :=
  c = ' ' || c = '\t' || c = '\n' || c = '\r' || c.toNat = 11 || c.toNat = 12

/-- JS `s.trim()`. -/
def jsTrim (s : String) : String :=
  ⟨((s.data.dropWhile isJsSpace).reverse.dropWhile isJsSpace).reverse⟩

/-- JS `s.toLowerCase()` (ASCII). -/
def jsToLower (s : String) : String :=
  ⟨s.data.map Char.toLower⟩

/-- JS `s.toUpperCase()` (ASCII). -/
def jsToUpper (s : String) : String :=
  ⟨s.data.map Char.toUpper⟩

/-- JS `s.split(sep)` for a one-character separator, over character lists:
`"".split(",") = [""]`, `"a,b".split(",") = ["a","b"]`. -/
def splitOnChar (sep : Char) : List Char → List (List Char)
  | [] => [[]]
  | c :: cs =>
    let rest := splitOnChar sep cs
    if c = sep then [] :: rest
    else
      match rest with
      | [] => [[c]]
      | r :: rs => (c :: r) :: rs

/-- JS `s.split(sep)` for a one-character separator. -/
def jsSplit (s : String) (sep : Char) : List String :=
  (splitOnChar sep s.data).map (fun l => ⟨l⟩)

/-- Substring test over character lists (JS `includes`). -/
def containsSub (sub : List Char) : List Char → Bool
  | [] => sub.isEmpty
  | c :: cs => sub.isPrefixOf (c :: cs) || containsSub sub cs

/-- JS `s.includes(sub)`. -/
def jsIncludes (s sub : String) : Bool :=
  containsSub sub.data s.data

/-! ## Data model (type ProductWithExtensions, OpenFoodFactsSearch.tsx) -/

/-- The fields of the external product record that the component consumes.
Optional fields mirror the `?` fields of the TypeScript type. -/
structure ProductWithExtensions where
  code : Option String := none
  product_name : Option String := none
  product_name_de : Option String := none
  nutrition_grade_fr : Option String := none
  ecoscore_grade : Option String := none
  categories_tags : Option (List String) := none
  countries_tags : Option (List String) := none
  purchase_places_tags : Option (List String) := none
  stores_tags : Option (List String) := none
  stores : Option String := none
  deriving DecidableEq

/-! ## Pure predicates (OpenFoodFactsSearch.tsx lines 29-95) -/

def SWISS_COUNTRY_TAGS : List String :=
  ["en:switzerland", "de:schweiz", "fr:suisse", "it:svizzera"]

def COOP_STORE_TAGS : List String :=
  ["coop", "coop-prix-garantie", "coop-pronto", "coop-city", "coop-to-go",
   "coop-restaurant", "coop-vitality"]

/-- `normalizeGrade`: `grade?.trim().toUpperCase() ?? ""`. -/
def normalizeGrade (grade : Option String) : String :=
  match grade with
  | some g => jsToUpper (jsTrim g)
  | none => ""

def INVALID_SCORE_VALUES : List String :=
  ["", "UNKNOWN", "NOT-APPLICABLE", "NOT_APPLICABLE"]

/-- `isValidScore` (lines 56-59). -/
def isValidScore (grade : Option String) : Bool :=
  let normalized := normalizeGrade grade
  normalized.length > 0 && !(INVALID_SCORE_VALUES.contains normalized)

/-- The tag-list normalization local to `isDistributedInSwitzerland`:
`values?.map(entry => entry.toLowerCase()) ?? []`. -/
def normalizedTagList (values : Option (List String)) : List String :=
  (values.getD []).map jsToLower

/-- `isDistributedInSwitzerland` (lines 61-71). -/
def isDistributedInSwitzerland (item : ProductWithExtensions) : Bool :=
  let countryMatches :=
    (normalizedTagList item.countries_tags).any
      (fun tag => SWISS_COUNTRY_TAGS.contains tag)
  let purchaseMatches :=
    (normalizedTagList item.purchase_places_tags).any
      (fun tag => tag == "switzerland")
  countryMatches || purchaseMatches

/-- The per-tag normalization in `isAvailableAtCoop`:
lower-case, `split(":").pop() ?? normalizedTag`. -/
def cleanStoreTag (tag : String) : String :=
  let normalizedTag := jsToLower tag
  (jsSplit normalizedTag ':').getLastD normalizedTag

/-- `isAvailableAtCoop` (lines 73-95). -/
def isAvailableAtCoop (item : ProductWithExtensions) : Bool :=
  let tagMatches :=
    (item.stores_tags.getD []).any
      (fun tag => COOP_STORE_TAGS.contains (cleanStoreTag tag))
  if tagMatches then
    true
  else
    let stores := jsToLower (item.stores.getD "")
    if stores = "" then
      false
    else
      let normalizedNames :=
        ((jsSplit stores ',').map jsTrim).filter (fun name => name ≠ "")
      normalizedNames.any (fun name => jsIncludes name "coop")

/-- The comma-separated, trimmed, non-empty entries of the lower-cased
free-text stores field, used to state the fallback tier of
`isAvailableAtCoop`. -/
def storeNameEntries (stores : Option String) : List String :=
  ((jsSplit (jsToLower (stores.getD "")) ',').map jsTrim).filter
    (fun name => name ≠ "")

/-! ## Alternative filters (fetchAlternatives, lines 409-444) -/

/-- The filter applied to the healthy search results (lines 413-421). -/
def filterHealthyAlternatives (product : ProductWithExtensions)
    (products : List ProductWithExtensions) : List ProductWithExtensions :=
  products.filter
    (fun item =>
      item.code != product.code &&
      isDistributedInSwitzerland item &&
      isAvailableAtCoop item &&
      isValidScore item.nutrition_grade_fr)

/-- The filter applied to the sustainable search results (lines 435-443). -/
def filterSustainableAlternatives (product : ProductWithExtensions)
    (products : List ProductWithExtensions) : List ProductWithExtensions :=
  products.filter
    (fun item =>
      item.code != product.code &&
      isDistributedInSwitzerland item &&
      isAvailableAtCoop item &&
      isValidScore item.ecoscore_grade)

/-! ## performLookup (lines 263-300) -/

/-- The payload of a product-by-code response:
`{ status?: number; product?: ProductWithExtensions }`. -/
structure LookupData where
  status : Option Int := none
  product : Option ProductWithExtensions := none
  deriving DecidableEq

/-- How the awaited `client.getProductV2` call can end: the promise rejects
(caught by the `catch` block), or it resolves with an `error` flag (truthiness
of `result.error`) and optional `data`. -/
inductive LookupResponse where
  | throws
  | returns (error : Bool) (data : Option LookupData)
  deriving DecidableEq

/-- The component state touched by `performLookup`. -/
structure LookupState where
  barcode : String := ""
  product : Option ProductWithExtensions := none
  loading : Bool := false
  error : Option String := none
  healthyAlternatives : List ProductWithExtensions := []
  sustainableAlternatives : List ProductWithExtensions := []
  healthyError : Option String := none
  sustainableError : Option String := none
  deriving DecidableEq

def validationMessage : String :=
  "Bitte geben Sie eine gültige Artikelnummer ein."

def commErrorMessage : String :=
  "Fehler bei der Kommunikation mit der Open Food Facts API."

def notFoundMessage (trimmed : String) : String :=
  "Kein Produkt mit der Artikelnummer \"" ++ trimmed ++ "\" gefunden."

/-- Whether the API call ended in a communication failure: the promise
rejected, or the result carried a truthy `error` field. -/
def commFailure : LookupResponse → Bool
  | .throws => true
  | .returns err _ => err

/-- Whether the response data carries a usable product:
`data?.product && (data.status === 1 || data.status === undefined)`. -/
def usableProduct (data : Option LookupData) : Bool :=
  match data with
  | none => false
  | some d => d.product.isSome && (d.status == some 1 || d.status == none)

/-- `performLookup` (lines 263-300), as a state transformer given the outcome
of the single API call; the second component records whether the API call was
made at all. -/
def performLookup (code : String) (response : LookupResponse)
    (s : LookupState) : LookupState × Bool :=
  let trimmed := jsTrim code
  if trimmed = "" then
    ({ s with error := some validationMessage, product := none }, false)
  else
    let s1 : LookupState :=
      { s with loading := true, error := none, product := none,
               healthyAlternatives := [], sustainableAlternatives := [],
               healthyError := none, sustainableError := none }
    match response with
    | .throws =>
      ({ s1 with error := some commErrorMessage, loading := false }, true)
    | .returns err data =>
      if err then
        ({ s1 with error := some commErrorMessage, loading := false }, true)
      else if usableProduct data then
        ({ s1 with product := (data.getD {}).product, barcode := "",
                   loading := false }, true)
      else
        ({ s1 with error := some (notFoundMessage trimmed),
                   loading := false }, true)

/-! ## Suggestion effect (useEffect, lines 325-468) -/

/-- The suggestion-related component state. -/
structure SuggestionState where
  healthyAlternatives : List ProductWithExtensions := []
  sustainableAlternatives : List ProductWithExtensions := []
  healthyLoading : Bool := false
  sustainableLoading : Bool := false
  healthyError : Option String := none
  sustainableError : Option String := none
  deriving DecidableEq

def missingCategoriesMessage : String :=
  "Für dieses Produkt fehlen Kategorien-Tags."

def healthyFailMessage : String :=
  "Fehler beim Laden gesunder Alternativen. Bitte erneut versuchen."

def sustainableFailMessage : String :=
  "Fehler beim Laden nachhaltiger Alternativen. Bitte erneut versuchen."

def totalFailMessage : String :=
  "Alternativen konnten nicht geladen werden. Bitte später erneut versuchen."

/-- The category-tag derivation (lines 336-338):
`product.categories_tags?.[length - 1] ?? product.categories_tags?.[0]`. -/
def deriveCategoryTag (categories_tags : Option (List String)) : Option String :=
  match categories_tags with
  | none => none
  | some l =>
    match l.getLast? with
    | some t => some t
    | none => l.head?

/-- What the synchronous part of the effect body does, depending on the
displayed product (lines 325-378): clear everything when there is no product,
take the missing-categories branch when the derived tag is falsy
(`if (!categoryTag)`, lines 340-349), or start the paired queries. -/
inductive SuggestionTrigger where
  | cleared
  | missingCategories
  | query (categoryTag : String)
  deriving DecidableEq

def suggestionTrigger (product : Option ProductWithExtensions) :
    SuggestionTrigger :=
  match product with
  | none => .cleared
  | some p =>
    match deriveCategoryTag p.categories_tags with
    | none => .missingCategories
    | some t => if t = "" then .missingCategories else .query t

/-- The state written by the synchronous part of the effect body; the second
component records whether the paired search queries are issued. -/
def applyTrigger (t : SuggestionTrigger) (s : SuggestionState) :
    SuggestionState × Bool :=
  match t with
  | .cleared =>
    ({ healthyAlternatives := [], sustainableAlternatives := [],
       healthyError := none, sustainableError := none,
       healthyLoading := false, sustainableLoading := false }, false)
  | .missingCategories =>
    ({ healthyAlternatives := [], sustainableAlternatives := [],
       healthyError := some missingCategoriesMessage,
       sustainableError := some missingCategoriesMessage,
       healthyLoading := false, sustainableLoading := false }, false)
  | .query _ =>
    ({ s with healthyLoading := true, sustainableLoading := true,
              healthyError := none, sustainableError := none }, true)

/-- A `SearchResult` payload: the optional `products` array. -/
structure SearchResultData where
  products : Option (List ProductWithExtensions) := none
  deriving DecidableEq

/-- One of the two awaited `client.search` results: the `error` flag
(truthiness of `result.error`) and optional `data`. -/
structure SearchResponse where
  error : Bool := false
  data : Option SearchResultData := none
  deriving DecidableEq

/-- How the awaited `Promise.all` pair can end: both results, or a thrown
exception handled by the `catch` block. -/
inductive FetchResolution where
  | results (healthy sustainable : SearchResponse)
  | thrown
  deriving DecidableEq

/-- `healthyData?.products ?? []` (lines 410-412 and 430-434). -/
def responseProducts (r : SearchResponse) : List ProductWithExtensions :=
  ((r.data.getD {}).products).getD []

/-- The healthy branch of the resolution handler (lines 404-422). -/
def applyHealthyResult (product : ProductWithExtensions) (r : SearchResponse)
    (s : SuggestionState) : SuggestionState :=
  if r.error then
    { s with healthyAlternatives := [],
             healthyError := some healthyFailMessage }
  else
    { s with healthyAlternatives :=
        filterHealthyAlternatives product (responseProducts r) }

/-- The sustainable branch of the resolution handler (lines 424-444). -/
def applySustainableResult (product : ProductWithExtensions)
    (r : SearchResponse) (s : SuggestionState) : SuggestionState :=
  if r.error then
    { s with sustainableAlternatives := [],
             sustainableError := some sustainableFailMessage }
  else
    { s with sustainableAlternatives :=
        filterSustainableAlternatives product (responseProducts r) }

/-- The continuation of `fetchAlternatives` after the awaited pair settles
(lines 400-460). `active` is the value of the `isActive` flag of this effect
run at that moment; every write — the per-list branches, the catch block and
the finally block — is guarded by it, so an inactive run returns the state
untouched. -/
def resolveFetch (active : Bool) (product : ProductWithExtensions)
    (res : FetchResolution) (s : SuggestionState) : SuggestionState :=
  match res with
  | .results h su =>
    if active then
      let s1 := applyHealthyResult product h s
      let s2 := applySustainableResult product su s1
      { s2 with healthyLoading := false, sustainableLoading := false }
    else
      s
  | .thrown =>
    if active then
      { s with healthyAlternatives := [], sustainableAlternatives := [],
               healthyError := some totalFailMessage,
               sustainableError := some totalFailMessage,
               healthyLoading := false, sustainableLoading := false }
    else
      s

/-! ## Effect lifecycle as a small event machine

Each run of the effect owns an `isActive` flag, set to `false` by the cleanup
that React runs before the next run (and on unmount). A fetch is therefore
active at resolution time exactly when no later effect run has started, which
we model by giving every run a generation number and comparing it with the
latest one. -/

structure AppState where
  displayed : Option ProductWithExtensions := none
  generation : Nat := 0
  sugg : SuggestionState := {}
  deriving DecidableEq

inductive Event where
  | productChange (p : Option ProductWithExtensions)
  | fetchComplete (id : Nat) (forProduct : ProductWithExtensions)
      (res : FetchResolution)
  deriving DecidableEq

/-- One step of the machine: a product change runs the previous effect's
cleanup (invalidating its flag — modelled by bumping the generation) and then
the new effect body; a fetch completion runs the resolution continuation with
its flag, which is still true exactly for the most recent generation. -/
def step (s : AppState) (e : Event) : AppState :=
  match e with
  | .productChange p =>
    { displayed := p, generation := s.generation + 1,
      sugg := (applyTrigger (suggestionTrigger p) s.sugg).1 }
  | .fetchComplete id p res =>
    { s with sugg := resolveFetch (id == s.generation) p res s.sugg }

/-! ## Barcode scanner decode callback (BarcodeScanner.tsx, lines 55-85) -/

/-- The error argument of the decode callback: either the library's
`NotFoundException` (no barcode in the current frame) or any other error. -/
inductive DecodeError where
  | notFound
  | other
  deriving DecidableEq

structure ScannerState where
  error : Option String := none
  isScanning : Bool := false
  deriving DecidableEq

def scanFailedMessage : String :=
  "Scan fehlgeschlagen. Bitte erneut versuchen."

/-- The decode callback (lines 67-78): on a result with non-empty text, emit
it through `onScan` and stop scanning; set the scan-failure message only for
errors that are not `NotFoundException`. Returns the new state and the list
of emitted codes. -/
def decodeCallback (result : Option String) (err : Option DecodeError)
    (s : ScannerState) : ScannerState × List String :=
  let withResult :=
    match result with
    | some text =>
      if text ≠ "" then ({ s with isScanning := false }, [text]) else (s, [])
    | none => (s, [])
  match err with
  | some DecodeError.notFound => withResult
  | some DecodeError.other =>
    ({ withResult.1 with error := some scanFailedMessage }, withResult.2)
  | none => withResult

/-! ## Concrete records used by witnesses and counterexamples -/

/-- The mocked §8 product: `{code:"737628064502", product_name:"Test"}`. -/
def mockProduct : ProductWithExtensions :=
  { code := some "737628064502", product_name := some "Test" }

/-- The mocked §8 successful response:
`{status:1, product:{code:"737628064502", product_name:"Test"}}`. -/
def mockResponse : LookupResponse :=
  .returns false (some { status := some 1, product := some mockProduct })

/-- A product whose category-tag list is non-empty but whose last entry is
the empty string. -/
def emptyTagProduct : ProductWithExtensions :=
  { code := some "4000417025005", categories_tags := some [""] }

/-! ## Helper lemmas -/

theorem string_length_pos_iff {s : String} : 0 < s.length ↔ s ≠ "" := by
  cases s with
  | mk data => cases data <;> simp [String.length, String.ext_iff]

theorem contains_iff_mem {l : List String} {a : String} :
    l.contains a = true ↔ a ∈ l := by
  simp [List.contains, List.elem_iff]

theorem perm_any_eq {l₁ l₂ : List String} (h : l₁.Perm l₂)
    (f : String → Bool) : l₁.any f = l₂.any f := by
  rw [Bool.eq_iff_iff, List.any_eq_true, List.any_eq_true]
  constructor
  · rintro ⟨x, hx, hfx⟩
    exact ⟨x, h.mem_iff.mp hx, hfx⟩
  · rintro ⟨x, hx, hfx⟩
    exact ⟨x, h.mem_iff.mpr hx, hfx⟩

theorem notFound_ne_comm (t : String) :
    notFoundMessage t ≠ commErrorMessage := by
  intro h
  have h2 : (notFoundMessage t).data.head? = some 'K' := by
    simp [notFoundMessage, String.data_append]
  rw [h] at h2
  exact absurd h2 (by decide)

/-! ## Claim theorems -/

/-- C3: `isValidScore` returns true exactly when the normalized (trimmed,
upper-cased) grade is non-empty and is none of "UNKNOWN", "NOT-APPLICABLE",
"NOT_APPLICABLE"; in particular "", "unknown", "Not-Applicable",
"NOT_APPLICABLE" (and a missing grade) are invalid while "a" and "E" are
valid. The function is a pure Lean function, hence side-effect free. -/
theorem C3_isValidScore_correct :
    (∀ grade : Option String,
      isValidScore grade = true ↔
        (normalizeGrade grade ≠ "" ∧ normalizeGrade grade ≠ "UNKNOWN" ∧
         normalizeGrade grade ≠ "NOT-APPLICABLE" ∧
         normalizeGrade grade ≠ "NOT_APPLICABLE")) ∧
    isValidScore (some "") = false ∧
    isValidScore (some "unknown") = false ∧
    isValidScore (some "Not-Applicable") = false ∧
    isValidScore (some "NOT_APPLICABLE") = false ∧
    isValidScore none = false ∧
    isValidScore (some "a") = true ∧
    isValidScore (some "E") = true := by
  refine ⟨?_, by decide, by decide, by decide, by decide, by decide,
    by decide, by decide⟩
  intro grade
  show (decide (0 < (normalizeGrade grade).length) &&
      !(INVALID_SCORE_VALUES.contains (normalizeGrade grade))) = true ↔ _
  generalize normalizeGrade grade = n
  rw [Bool.and_eq_true, decide_eq_true_eq, string_length_pos_iff,
    Bool.not_eq_true']
  rw [show (INVALID_SCORE_VALUES.contains n = false) ↔ ¬(n ∈ INVALID_SCORE_VALUES) by
    rw [← contains_iff_mem]; exact Bool.not_eq_true _ ▸ Iff.rfl]
  simp only [INVALID_SCORE_VALUES, List.mem_cons, List.not_mem_nil, or_false,
    not_or]
  tauto

/-- C5: `isDistributedInSwitzerland` is true exactly when some country tag,
lower-cased, is one of the four Swiss tags, or some purchase-place tag,
lower-cased, equals "switzerland"; the result is invariant under permutation
of either tag list; country tag "de:schweiz" yields true, and a product with
only "en:france" and no purchase places yields false. -/
theorem C5_isDistributedInSwitzerland_correct :
    (∀ item : ProductWithExtensions,
      isDistributedInSwitzerland item = true ↔
        ((∃ tag ∈ item.countries_tags.getD [],
            jsToLower tag ∈ SWISS_COUNTRY_TAGS) ∨
         (∃ tag ∈ item.purchase_places_tags.getD [],
            jsToLower tag = "switzerland"))) ∧
    (∀ (item : ProductWithExtensions) (c₁ c₂ p₁ p₂ : List String),
      c₁.Perm c₂ → p₁.Perm p₂ →
      isDistributedInSwitzerland
        { item with countries_tags := some c₁,
                    purchase_places_tags := some p₁ } =
      isDistributedInSwitzerland
        { item with countries_tags := some c₂,
                    purchase_places_tags := some p₂ }) ∧
    isDistributedInSwitzerland { countries_tags := some ["de:schweiz"] } = true ∧
    isDistributedInSwitzerland { countries_tags := some ["en:france"] } = false := by
  refine ⟨?_, ?_, by decide, by decide⟩
  · intro item
    simp only [isDistributedInSwitzerland, normalizedTagList, Bool.or_eq_true,
      List.any_eq_true, List.mem_map]
    constructor
    · rintro (⟨t, ⟨x, hx, rfl⟩, ht⟩ | ⟨t, ⟨x, hx, rfl⟩, ht⟩)
      · exact Or.inl ⟨x, hx, contains_iff_mem.mp ht⟩
      · exact Or.inr ⟨x, hx, by simpa using ht⟩
    · rintro (⟨x, hx, hmem⟩ | ⟨x, hx, heq⟩)
      · exact Or.inl ⟨jsToLower x, ⟨x, hx, rfl⟩, contains_iff_mem.mpr hmem⟩
      · exact Or.inr ⟨jsToLower x, ⟨x, hx, rfl⟩, by simpa using heq⟩
  · intro item c₁ c₂ p₁ p₂ hc hp
    simp only [isDistributedInSwitzerland, normalizedTagList, Option.getD_some]
    rw [perm_any_eq (hc.map jsToLower), perm_any_eq (hp.map jsToLower)]

/-- C5 witness: the permutation-invariance part applied to the two-element
swap of the country tags of a concrete product. -/
theorem C5_witness :
    isDistributedInSwitzerland
      { countries_tags := some ["de:schweiz", "en:france"],
        purchase_places_tags := some [] } =
    isDistributedInSwitzerland
      { countries_tags := some ["en:france", "de:schweiz"],
        purchase_places_tags := some [] } :=
  C5_isDistributedInSwitzerland_correct.2.1 {}
    ["de:schweiz", "en:france"] ["en:france", "de:schweiz"] [] []
    (List.Perm.swap "en:france" "de:schweiz" [])
    (List.Perm.refl [])

/-- C4: `isAvailableAtCoop` is true exactly when some store tag, lower-cased
and stripped up to the last colon, is in the fixed allow-list, or some
comma-separated, trimmed, non-empty entry of the lower-cased free-text stores
field contains the substring "coop"; tag "ch:coop-pronto" yields true,
free text "Coop, Manor" yields true via the fallback, and "Migros" alone
yields false. -/
theorem C4_isAvailableAtCoop_correct :
    (∀ item : ProductWithExtensions,
      isAvailableAtCoop item = true ↔
        ((∃ tag ∈ item.stores_tags.getD [],
            cleanStoreTag tag ∈ COOP_STORE_TAGS) ∨
         (∃ name ∈ storeNameEntries item.stores,
            jsIncludes name "coop" = true))) ∧
    isAvailableAtCoop { stores_tags := some ["ch:coop-pronto"] } = true ∧
    isAvailableAtCoop { stores := some "Coop, Manor" } = true ∧
    isAvailableAtCoop { stores := some "Migros" } = false := by
  refine ⟨?_, by decide, by decide, by decide⟩
  intro item
  simp only [isAvailableAtCoop]
  by_cases htag :
      ((item.stores_tags.getD []).any
        (fun tag => COOP_STORE_TAGS.contains (cleanStoreTag tag))) = true
  · rw [if_pos htag]
    simp only [true_iff]
    obtain ⟨tag, hmem, htag'⟩ := List.any_eq_true.mp htag
    exact Or.inl ⟨tag, hmem, contains_iff_mem.mp htag'⟩
  · rw [if_neg htag]
    have hleft :
        ¬ ∃ tag ∈ item.stores_tags.getD [],
            cleanStoreTag tag ∈ COOP_STORE_TAGS := by
      rintro ⟨tag, hmem, hin⟩
      exact htag (List.any_eq_true.mpr ⟨tag, hmem, contains_iff_mem.mpr hin⟩)
    have hsn :
        ((jsSplit (jsToLower (item.stores.getD "")) ',').map jsTrim).filter
          (fun name => name ≠ "") = storeNameEntries item.stores := rfl
    by_cases hs : jsToLower (item.stores.getD "") = ""
    · rw [if_pos hs]
      have hentries : storeNameEntries item.stores = [] := by
        rw [← hsn, hs]
        decide
      simp [hleft, hentries]
    · rw [if_neg hs, hsn, List.any_eq_true]
      constructor
      · rintro ⟨name, hmem, hinc⟩
        exact Or.inr ⟨name, hmem, hinc⟩
      · rintro (h | ⟨name, hmem, hinc⟩)
        · exact absurd h hleft
        · exact ⟨name, hmem, hinc⟩

/-- C2: an item is in the healthy alternatives list exactly when it is among
the search results, its code differs from the displayed product's code, it
passes the regional and retailer checks, and its nutrition grade is valid;
the sustainable list is the same with the eco grade; in particular an item
sharing the displayed product's code is in neither list. -/
theorem C2_alternatives_membership :
    ∀ (product item : ProductWithExtensions)
      (products : List ProductWithExtensions),
      (item ∈ filterHealthyAlternatives product products ↔
        (item ∈ products ∧ item.code ≠ product.code ∧
         isDistributedInSwitzerland item = true ∧
         isAvailableAtCoop item = true ∧
         isValidScore item.nutrition_grade_fr = true)) ∧
      (item ∈ filterSustainableAlternatives product products ↔
        (item ∈ products ∧ item.code ≠ product.code ∧
         isDistributedInSwitzerland item = true ∧
         isAvailableAtCoop item = true ∧
         isValidScore item.ecoscore_grade = true)) ∧
      (item.code = product.code →
        item ∉ filterHealthyAlternatives product products ∧
        item ∉ filterSustainableAlternatives product products) := by
  intro product item products
  have h1 : item ∈ filterHealthyAlternatives product products ↔
      (item ∈ products ∧ item.code ≠ product.code ∧
       isDistributedInSwitzerland item = true ∧
       isAvailableAtCoop item = true ∧
       isValidScore item.nutrition_grade_fr = true) := by
    rw [filterHealthyAlternatives, List.mem_filter]
    simp only [Bool.and_eq_true, bne_iff_ne]
    tauto
  have h2 : item ∈ filterSustainableAlternatives product products ↔
      (item ∈ products ∧ item.code ≠ product.code ∧
       isDistributedInSwitzerland item = true ∧
       isAvailableAtCoop item = true ∧
       isValidScore item.ecoscore_grade = true) := by
    rw [filterSustainableAlternatives, List.mem_filter]
    simp only [Bool.and_eq_true, bne_iff_ne]
    tauto
  refine ⟨h1, h2, ?_⟩
  intro hcode
  constructor
  · intro hmem
    exact (h1.mp hmem).2.1 hcode
  · intro hmem
    exact (h2.mp hmem).2.1 hcode

/-- C2 witness: a result sharing the displayed product's code is excluded
from both lists even when it is the sole search result. -/
theorem C2_witness :
    ({ code := some "7610800000000" } : ProductWithExtensions) ∉
      filterHealthyAlternatives { code := some "7610800000000" }
        [{ code := some "7610800000000" }] ∧
    ({ code := some "7610800000000" } : ProductWithExtensions) ∉
      filterSustainableAlternatives { code := some "7610800000000" }
        [{ code := some "7610800000000" }] :=
  (C2_alternatives_membership { code := some "7610800000000" }
    { code := some "7610800000000" }
    [{ code := some "7610800000000" }]).2.2 rfl

/-- C7: every run of `performLookup` ends in exactly one of four outcomes,
by cases on the input and the API call's outcome: (a) blank input — local
validation message, product null, no API call; (b) communication failure —
the generic communication message; (c) no usable product — a not-found
message naming the trimmed code and distinct from the communication message;
(d) success — the product is displayed, the error is cleared and the barcode
input is cleared. -/
theorem C7_performLookup_partition :
    ∀ (code : String) (response : LookupResponse) (s : LookupState),
      (jsTrim code = "" →
        performLookup code response s =
          ({ s with error := some validationMessage, product := none },
           false)) ∧
      (jsTrim code ≠ "" → commFailure response = true →
        (performLookup code response s).1.error = some commErrorMessage ∧
        (performLookup code response s).1.product = none ∧
        (performLookup code response s).2 = true) ∧
      (jsTrim code ≠ "" →
        ∀ data, response = .returns false data → usableProduct data = false →
          (performLookup code response s).1.error =
            some (notFoundMessage (jsTrim code)) ∧
          notFoundMessage (jsTrim code) ≠ commErrorMessage ∧
          (performLookup code response s).1.product = none ∧
          (performLookup code response s).2 = true) ∧
      (jsTrim code ≠ "" →
        ∀ data, response = .returns false data → usableProduct data = true →
          (performLookup code response s).1.product =
            (data.getD {}).product ∧
          (performLookup code response s).1.product.isSome = true ∧
          (performLookup code response s).1.error = none ∧
          (performLookup code response s).1.barcode = "" ∧
          (performLookup code response s).2 = true) := by
  intro code response s
  refine ⟨?_, ?_, ?_, ?_⟩
  · intro h
    simp [performLookup, h]
  · intro h hfail
    cases response with
    | throws => simp [performLookup, h]
    | returns err data =>
      simp only [commFailure] at hfail
      simp [performLookup, h, hfail]
  · intro h data hresp husable
    subst hresp
    refine ⟨?_, notFound_ne_comm _, ?_, ?_⟩ <;>
      simp [performLookup, h, husable]
  · intro h data hresp husable
    subst hresp
    obtain ⟨d, rfl⟩ : ∃ d, data = some d := by
      cases data with
      | none => exact absurd husable (by decide)
      | some d => exact ⟨d, rfl⟩
    have hsome : d.product.isSome = true := by
      have h' := husable
      simp only [usableProduct, Bool.and_eq_true] at h'
      exact h'.1
    refine ⟨?_, ?_, ?_, ?_, ?_⟩ <;>
      simp [performLookup, h, husable, hsome]

/-- C7 witness: the §8 mock — submitting "737628064502" with the mocked
successful response displays the mocked product and clears the barcode
field; submitting the empty string sets the validation message, leaves the
product null and makes no API call. -/
theorem C7_witness :
    ((performLookup "737628064502" mockResponse {}).1.product =
        some mockProduct ∧
     (performLookup "737628064502" mockResponse {}).1.error = none ∧
     (performLookup "737628064502" mockResponse {}).1.barcode = "") ∧
    performLookup "" .throws {} =
      ({ error := some validationMessage, product := none }, false) := by
  have h := C7_performLookup_partition "737628064502" mockResponse {}
  have h0 := C7_performLookup_partition "" LookupResponse.throws {}
  have h4 := h.2.2.2 (by decide)
    (some { status := some 1, product := some mockProduct }) rfl (by decide)
  exact ⟨⟨h4.1, h4.2.2.1, h4.2.2.2.1⟩, h0.1 (by decide)⟩

/-- C10: a response carrying a product but no status field at all is treated
as a successful lookup — the product is displayed and the barcode cleared;
and the not-found message is produced only when the product is absent or the
status is present with a value other than 1. -/
theorem C10_status_undefined_success :
    ∀ (code : String) (s : LookupState) (d : LookupData)
      (p : ProductWithExtensions),
      jsTrim code ≠ "" →
      ((d.product = some p → d.status = none →
        (performLookup code (.returns false (some d)) s).1.product = some p ∧
        (performLookup code (.returns false (some d)) s).1.barcode = "" ∧
        (performLookup code (.returns false (some d)) s).1.error = none) ∧
       ((performLookup code (.returns false (some d)) s).1.error =
          some (notFoundMessage (jsTrim code)) →
        d.product = none ∨ ∃ k : Int, d.status = some k ∧ k ≠ 1)) := by
  intro code s d p h
  constructor
  · intro hp hst
    have husable : usableProduct (some d) = true := by
      simp [usableProduct, hp, hst]
    refine ⟨?_, ?_, ?_⟩ <;> simp [performLookup, h, husable, hp]
  · intro herr
    by_cases husable : usableProduct (some d) = true
    · exfalso
      have : (performLookup code (.returns false (some d)) s).1.error =
          none := by
        simp [performLookup, h, husable]
      rw [this] at herr
      exact Option.noConfusion herr
    · cases hp : d.product with
      | none => exact Or.inl rfl
      | some q =>
        cases hstatus : d.status with
        | none =>
          exact absurd (by simp [usableProduct, hp, hstatus]) husable
        | some k =>
          by_cases hk : k = 1
          · exact absurd (by simp [usableProduct, hp, hstatus, hk]) husable
          · exact Or.inr ⟨k, rfl, hk⟩

/-- C10 witness: a concrete response with a product and no status field is
displayed as a success. -/
theorem C10_witness :
    (performLookup "4000417025005"
      (.returns false
        (some { status := none, product := some emptyTagProduct })) {}).1.product =
      some emptyTagProduct :=
  ((C10_status_undefined_success "4000417025005" {}
    { status := none, product := some emptyTagProduct } emptyTagProduct
    (by decide)).1 rfl rfl).1

/-- C8 counterexample: the claim reads the missing-categories outcome (no
queries issued) as occurring exactly when the category-tag list is missing or
empty, so it entails that for every displayed product either the list is
missing/empty or the queries are issued. A product whose list is the
non-empty `[""]` refutes this: the derived tag is the empty string, which is
falsy in `if (!categoryTag)`, so the code takes the missing-categories branch
and issues no queries. -/
theorem C8_counterexample :
    ¬ (∀ (p : ProductWithExtensions) (s : SuggestionState),
        p.categories_tags = none ∨ p.categories_tags = some [] ∨
        (applyTrigger (suggestionTrigger (some p)) s).2 = true) := by
  intro hclaim
  rcases hclaim emptyTagProduct {} with h | h | h
  · exact Option.noConfusion h
  · exact absurd h (by decide)
  · exact absurd h (by decide)

/-- C8 (amended): the category tag is derived as the last element of the
categories list (the fall-back to the first element can only fire on an
empty list, where it too yields nothing, so derivation equals `getLast?`);
the missing-categories branch — both lists cleared, both error states set to
the missing-categories message, both loading flags cleared, no queries
issued — is taken exactly when no tag can be derived or the derived tag is
the empty string; otherwise the queries are issued with the derived tag. -/
theorem C8_category_derivation_amended :
    (deriveCategoryTag none = none) ∧
    (∀ l : List String, deriveCategoryTag (some l) = l.getLast?) ∧
    (∀ p : ProductWithExtensions,
      suggestionTrigger (some p) = SuggestionTrigger.missingCategories ↔
        (deriveCategoryTag p.categories_tags = none ∨
         deriveCategoryTag p.categories_tags = some "")) ∧
    (∀ (p : ProductWithExtensions) (t : String),
      suggestionTrigger (some p) = SuggestionTrigger.query t ↔
        (deriveCategoryTag p.categories_tags = some t ∧ t ≠ "")) ∧
    (∀ s : SuggestionState,
      applyTrigger SuggestionTrigger.missingCategories s =
        ({ healthyAlternatives := [], sustainableAlternatives := [],
           healthyError := some missingCategoriesMessage,
           sustainableError := some missingCategoriesMessage,
           healthyLoading := false, sustainableLoading := false }, false)) := by
  refine ⟨rfl, ?_, ?_, ?_, fun s => rfl⟩
  · intro l
    cases hl : l.getLast? with
    | some t => simp [deriveCategoryTag, hl]
    | none =>
      have : l = [] := List.getLast?_eq_none_iff.mp hl
      subst this
      rfl
  · intro p
    cases h : deriveCategoryTag p.categories_tags with
    | none => simp [suggestionTrigger, h]
    | some t =>
      by_cases ht : t = ""
      · subst ht
        simp [suggestionTrigger, h]
      · simp [suggestionTrigger, h, ht]
  · intro p t
    cases h : deriveCategoryTag p.categories_tags with
    | none => simp [suggestionTrigger, h]
    | some u =>
      by_cases hu : u = ""
      · subst hu
        simp only [suggestionTrigger, h, if_pos rfl]
        constructor
        · intro hcontra
          exact SuggestionTrigger.noConfusion hcontra
        · rintro ⟨hsome, ht⟩
          exact absurd (Option.some.inj hsome).symm ht
      · simp only [suggestionTrigger, h, if_neg hu]
        constructor
        · intro heq
          obtain rfl := SuggestionTrigger.query.inj heq
          exact ⟨rfl, hu⟩
        · rintro ⟨hsome, ht⟩
          rw [Option.some.inj hsome]

/-- C6: when exactly one of the paired queries fails, only that list is
cleared and only that list's error is set; the other list's alternatives and
error state are computed from its own result alone (the sustainable outcome
is a function of the sustainable result only, and symmetrically), and the
failed list's error leaves the other list's error untouched; when the
awaited pair itself throws, both lists are cleared and both errors set. -/
theorem C6_failure_isolation :
    ∀ (p : ProductWithExtensions) (h su : SearchResponse)
      (s : SuggestionState),
      (h.error = true → su.error = false →
        (resolveFetch true p (.results h su) s).healthyAlternatives = [] ∧
        (resolveFetch true p (.results h su) s).healthyError =
          some healthyFailMessage ∧
        (resolveFetch true p (.results h su) s).sustainableAlternatives =
          filterSustainableAlternatives p (responseProducts su) ∧
        (resolveFetch true p (.results h su) s).sustainableError =
          s.sustainableError) ∧
      (su.error = true → h.error = false →
        (resolveFetch true p (.results h su) s).sustainableAlternatives = [] ∧
        (resolveFetch true p (.results h su) s).sustainableError =
          some sustainableFailMessage ∧
        (resolveFetch true p (.results h su) s).healthyAlternatives =
          filterHealthyAlternatives p (responseProducts h) ∧
        (resolveFetch true p (.results h su) s).healthyError =
          s.healthyError) ∧
      (∀ h' : SearchResponse,
        (resolveFetch true p (.results h su) s).sustainableAlternatives =
          (resolveFetch true p (.results h' su) s).sustainableAlternatives ∧
        (resolveFetch true p (.results h su) s).sustainableError =
          (resolveFetch true p (.results h' su) s).sustainableError) ∧
      (∀ su' : SearchResponse,
        (resolveFetch true p (.results h su) s).healthyAlternatives =
          (resolveFetch true p (.results h su') s).healthyAlternatives ∧
        (resolveFetch true p (.results h su) s).healthyError =
          (resolveFetch true p (.results h su') s).healthyError) ∧
      (resolveFetch true p FetchResolution.thrown s =
        { healthyAlternatives := [], sustainableAlternatives := [],
          healthyError := some totalFailMessage,
          sustainableError := some totalFailMessage,
          healthyLoading := false, sustainableLoading := false }) := by
  intro p h su s
  refine ⟨?_, ?_, ?_, ?_, rfl⟩
  · intro hh hsu
    simp [resolveFetch, applyHealthyResult, applySustainableResult, hh, hsu]
  · intro hsu hh
    simp [resolveFetch, applyHealthyResult, applySustainableResult, hh, hsu]
  · intro h'
    cases hh : h.error <;> cases hh' : h'.error <;> cases hsu : su.error <;>
      simp [resolveFetch, applyHealthyResult, applySustainableResult, hh,
        hh', hsu]
  · intro su'
    cases hh : h.error <;> cases hsu : su.error <;> cases hsu' : su'.error <;>
      simp [resolveFetch, applyHealthyResult, applySustainableResult, hh,
        hsu, hsu']

/-- C6 witness: with a failed healthy query and a successful sustainable
query (returning no data) on the initial suggestion state, only the healthy
error is set and the sustainable error stays clear. -/
theorem C6_witness :
    (resolveFetch true {}
      (.results { error := true } { error := false }) {}).healthyError =
      some healthyFailMessage ∧
    (resolveFetch true {}
      (.results { error := true } { error := false }) {}).sustainableError =
      none :=
  ⟨((C6_failure_isolation {} { error := true } { error := false } {}).1
      rfl rfl).2.1,
   ((C6_failure_isolation {} { error := true } { error := false } {}).1
      rfl rfl).2.2.2⟩

/-- An inactive fetch resolution writes nothing: every branch of the
continuation is guarded by the `isActive` flag. -/
theorem resolveFetch_inactive (forP : ProductWithExtensions)
    (res : FetchResolution) (st : SuggestionState) :
    resolveFetch false forP res st = st := by
  cases res <;> rfl

/-- A fetch completion whose generation is not the latest one leaves the
whole application state unchanged. -/
theorem stale_step_eq (s : AppState) (id : Nat)
    (forP : ProductWithExtensions) (res : FetchResolution)
    (hne : id ≠ s.generation) :
    step s (.fetchComplete id forP res) = s := by
  have hbeq : (id == s.generation) = false := by
    simp [hne]
  simp only [step, hbeq, resolveFetch_inactive]

/-- C1: a fetch superseded by a product change writes nothing into
suggestion state. A stale completion (one whose generation is not the
latest) is the identity on the whole state — it touches neither alternative
list, neither error message, nor either loading flag — and every fetch that
was in flight before a product change (generation at most the previous
latest) is stale afterwards, so only the most recently triggered fetch can
write. -/
theorem C1_stale_fetch_no_write :
    ∀ (s : AppState) (id : Nat) (forP : ProductWithExtensions)
      (res : FetchResolution) (p : Option ProductWithExtensions),
      (id ≠ s.generation → step s (.fetchComplete id forP res) = s) ∧
      (id ≤ s.generation →
        id ≠ (step s (.productChange p)).generation ∧
        step (step s (.productChange p)) (.fetchComplete id forP res) =
          step s (.productChange p)) := by
  intro s id forP res p
  refine ⟨stale_step_eq s id forP res, ?_⟩
  intro hle
  have hgen : (step s (.productChange p)).generation = s.generation + 1 := rfl
  have hne : id ≠ (step s (.productChange p)).generation := by
    rw [hgen]
    omega
  exact ⟨hne, stale_step_eq _ id forP res hne⟩

/-- C1 witness: in the initial state, after a product change the fetch of
generation 0 is stale and its completion (here a network failure) changes
nothing. -/
theorem C1_witness :
    0 ≤ ({ generation := 0 } : AppState).generation ∧
    step (step { generation := 0 } (.productChange none))
        (.fetchComplete 0 {} .thrown) =
      step ({ generation := 0 } : AppState) (.productChange none) :=
  ⟨Nat.le_refl 0,
   ((C1_stale_fetch_no_write { generation := 0 } 0 {} .thrown none).2
      (Nat.le_refl 0)).2⟩

/-- C9: the decode callback never surfaces a `NotFoundException` to the
user — with that error the scanner error state is left exactly as it was —
and the scan-failure message is set exactly for errors that are not
`NotFoundException`. -/
theorem C9_scanner_notFound_suppressed :
    ∀ (result : Option String) (err : Option DecodeError) (s : ScannerState),
      (decodeCallback result (some DecodeError.notFound) s).1.error =
        s.error ∧
      ((decodeCallback result err s).1.error =
        if err = some DecodeError.other then some scanFailedMessage
        else s.error) := by
  intro result err s
  have hres : ∀ e,
      (decodeCallback result e s).1.error =
        if e = some DecodeError.other then some scanFailedMessage
        else s.error := by
    intro e
    cases e with
    | none =>
      cases result with
      | none => rfl
      | some text => by_cases ht : text = "" <;> simp [decodeCallback, ht]
    | some de =>
      cases de with
      | notFound =>
        cases result with
        | none => rfl
        | some text => by_cases ht : text = "" <;> simp [decodeCallback, ht]
      | other =>
        cases result with
        | none => rfl
        | some text => by_cases ht : text = "" <;> simp [decodeCallback, ht]
  exact ⟨(hres (some DecodeError.notFound)).trans (by simp), hres err⟩

end FoodScanner
